import Mathlib

/-!
Shallow embedding of the catering-service ingredient pipeline
(`backend/utils/unit_helper.py` and `backend/ingredients/routes.py`).

Modelling conventions:
* Python floats are modelled as `ℚ`; `round(x, 2)` is modelled as
  `round2` below (round to the nearest hundredth).  No claim in this
  development touches an exact half, where Python's round-half-to-even
  could differ from `round`.
* Python dicts keyed by ingredient name are modelled as insertion-ordered
  association lists (`List (String × _)`), matching CPython's ordered
  dicts.
* `list.sort(key=...)` is modelled as a stable insertion sort on the sort
  key; any two stable sorts by the same key agree, so this is faithful.
* MongoDB collections are modelled as association lists keyed by id, and
  the route handlers as functions from a server state to `Except` of a
  new state (an `Except.error` result models a handler that returned an
  error response without changing any stored data).
-/

/-- Python `needle in hay` on lists of characters (substring test). -/
def listContains (needle : List Char) : List Char → Bool
  | [] => needle.isEmpty
  | c :: cs => needle.isPrefixOf (c :: cs) || listContains needle cs

/-- Python `needle in hay` for strings. -/
def strContains (hay needle : String) : Bool :=
  listContains needle.toList hay.toList

/-- Python `str.lower()` (ASCII-faithful), written on the character
list so that it evaluates by kernel reduction. -/
def lowerStr (s : String) : String := ⟨s.toList.map Char.toLower⟩

/-- Python `str.strip()`: drop leading and trailing whitespace. -/
def trimStr (s : String) : String :=
  ⟨((s.toList.dropWhile Char.isWhitespace).reverse.dropWhile Char.isWhitespace).reverse⟩

/-- Python `any(word in name for word in words)`. -/
def anyWordIn (words : List String) (name : String) : Bool :=
  words.any (fun w => strContains name w)

/-- Python `round(x, 2)`. -/
def round2 (q : ℚ) : ℚ := (round (q * 100) : ℤ) / 100

/-- `unit_helper.to_base_unit`: convert a recognized unit to base units
(`g` for weight, `ml` for volume, pass-through for count units);
an unrecognized unit raises `ValueError`, modelled as `none`. -/
def to_base_unit (value : ℚ) (unit : String) : Option (ℚ × String) :=
  let u := trimStr (lowerStr unit)
  if u ∈ ["kg", "kilogram", "kilograms"] then some (value * 1000, "g")
  else if u ∈ ["g", "gm", "gram", "grams"] then some (value, "g")
  else if u ∈ ["oz", "ounce", "ounces"] then some (value * (2835/100), "g")
  else if u ∈ ["lb", "pound", "pounds"] then some (value * (45359/100), "g")
  else if u ∈ ["mg", "milligram", "milligrams"] then some (value / 1000, "g")
  else if u ∈ ["l", "ltr", "liter", "liters", "litre", "litres"] then some (value * 1000, "ml")
  else if u ∈ ["ml", "milliliter", "milliliters", "millilitre", "millilitres"] then some (value, "ml")
  else if u ∈ ["piece", "pieces", "pcs", "pc"] then some (value, "pcs")
  else if u ∈ ["packet", "packets", "pkt"] then some (value, "pkt")
  else if u ∈ ["bunch", "bunches"] then some (value, "bunch")
  else if u ∈ ["dozen", "dozens"] then some (value, "dozen")
  else if u ∈ ["slice", "slices"] then some (value, "slice")
  else if u ∈ ["can", "cans"] then some (value, "can")
  else if u ∈ ["bottle", "bottles"] then some (value, "bottle")
  else if u ∈ ["cup", "cups"] then some (value, "cup")
  else if u ∈ ["tbsp", "tablespoon", "tablespoons"] then some (value, "tbsp")
  else if u ∈ ["tsp", "teaspoon", "teaspoons"] then some (value, "tsp")
  else none

/-- `unit_helper.to_display_unit`: convert base-unit values back to
display units.  Note the source rounds only the `g` and `ml` branches;
the pass-through branch returns the value unrounded, and the large-`ml`
display unit is the string `"ltr"`. -/
def to_display_unit (value : ℚ) (base_unit : String) : ℚ × String :=
  if base_unit = "g" then
    if value ≥ 1000 then (round2 (value / 1000), "kg") else (round2 value, "g")
  else if base_unit = "ml" then
    if value ≥ 1000 then (round2 (value / 1000), "ltr") else (round2 value, "ml")
  else (value, base_unit)

/-!  Data model for dish templates, bookings and the generated list. -/

/-- One ingredient entry of a dish template.  `quantity_per_plate` and
`per_plate` model the two optional JSON keys read by
`ing.get("quantity_per_plate", ing.get("per_plate", 0))`; `category`
models `ing.get("category", "")` with `""` for an absent key. -/
structure TemplateIng where
  name : String
  quantity_per_plate : Option ℚ
  per_plate : Option ℚ
  unit : String
  category : String
deriving Repr, DecidableEq

/-- One dish line of a booking (`{"dish_name": ..., "quantity": ...}`). -/
structure DishLine where
  dish_name : String
  quantity : ℚ
deriving Repr, DecidableEq

/-- A booking document (the fields `generate_final_ingredients` reads). -/
structure Booking where
  guests : ℚ
  dishes : List DishLine
deriving Repr, DecidableEq

/-- The `dishes` collection: dish name → ingredient template. -/
def DishDB := List (String × List TemplateIng)

/-- `get_dish_ingredients_from_db`: case-insensitive exact-name lookup
in the dishes collection; `[]` when the dish is missing. -/
def get_dish_ingredients_from_db (db : DishDB) (dish_name : String) : List TemplateIng :=
  match db.find? (fun p => lowerStr p.1 = lowerStr dish_name) with
  | some p => p.2
  | none => []

/-- One entry of the output of `generate_final_ingredients`. -/
structure FinalIng where
  name : String
  quantity : ℚ
  unit : String
  category : String
  checked : Bool
deriving Repr, DecidableEq

/-- The running aggregation value for one ingredient name. -/
structure AggEntry where
  quantity : ℚ
  base_unit : String
  category : String
deriving Repr, DecidableEq

/-- Python quantity lookup
`ing.get("quantity_per_plate", ing.get("per_plate", 0))`. -/
def pyBaseQty (ing : TemplateIng) : ℚ :=
  ing.quantity_per_plate.getD (ing.per_plate.getD 0)

/-- The unit-inference fallback of `generate_final_ingredients` (the
`except ValueError` branch): pick a plausible unit from keywords of the
ingredient name. -/
def infer_unit (name : String) : String :=
  if strContains (lowerStr name) "milk" then "ltr"
  else if anyWordIn ["oil", "ghee", "butter"] (lowerStr name) then "ml"
  else if anyWordIn ["rice", "flour", "sugar", "salt"] (lowerStr name) then "kg"
  else if anyWordIn ["onion", "potato", "tomato", "vegetable"] (lowerStr name) then "kg"
  else if anyWordIn ["cumin", "turmeric", "chili", "coriander"] (lowerStr name) then "gm"
  else "gm"

/-- The `try: to_base_unit ... except ValueError:` block: convert with
the template's unit, falling back to the name-inferred unit.  The
`.getD` default is unreachable (`infer_unit` only returns convertible
units, see `to_base_unit_infer_unit_isSome`). -/
def convert_qty (qty : ℚ) (unit name : String) : ℚ × String :=
  match to_base_unit qty unit with
  | some r => r
  | none => (to_base_unit qty (infer_unit name)).getD (qty, "g")

/-- The ordered keyword classifier of `generate_final_ingredients`,
applied when the template entry has no explicit category. -/
def categorize (name : String) : String :=
  let n := lowerStr name
  if anyWordIn ["chicken", "mutton", "fish", "egg", "meat"] n then "Non-Vegetarian"
  else if anyWordIn ["onion", "potato", "tomato", "carrot", "beans", "peas", "vegetable", "ginger", "garlic", "mint", "coriander", "curry leaves", "tamarind"] n then "Vegetables"
  else if anyWordIn ["cumin", "turmeric", "chili", "coriander", "garam", "masala", "spices", "mustard", "sambar", "biryani"] n then "Spices / Masala"
  else if anyWordIn ["milk", "cheese", "yogurt", "butter", "cream", "paneer"] n then "Dairy"
  else if anyWordIn ["apple", "banana", "orange", "fruit", "mango", "grapes"] n then "Fruit"
  else if anyWordIn ["rice", "wheat", "flour", "grain", "oats", "barley"] n then "Grain"
  else if anyWordIn ["basil", "oregano", "thyme", "rosemary", "herb"] n then "Herbs"
  else if anyWordIn ["tea", "coffee", "juice", "beverage", "soda"] n then "Beverages"
  else if anyWordIn ["oil", "ghee", "fat", "butter", "lard"] n then "Oil and Fats"
  else if anyWordIn ["sugar", "cake", "bread", "cookie", "sweet", "bakery"] n then "Bakery & Sweets"
  else "Other"

/-- Dict assignment into the insertion-ordered `ingredient_totals`
mapping: an existing key accumulates `quantity` in place (keeping its
first `base_unit` and `category`), a new key is appended at the end. -/
def addIngredient (nm : String) (q : ℚ) (bu cat : String) :
    List (String × AggEntry) → List (String × AggEntry)
  | [] => [(nm, ⟨q, bu, cat⟩)]
  | p :: ps =>
    if p.1 = nm then (p.1, { p.2 with quantity := p.2.quantity + q }) :: ps
    else p :: addIngredient nm q bu cat ps

/-- Processing of one template entry inside the dish loop: convert to a
base unit, resolve the category, scale by
`(converted_qty / 10) * guests * dish_quantity`, and accumulate. -/
def processIng (guests dishQty : ℚ) (m : List (String × AggEntry))
    (ing : TemplateIng) : List (String × AggEntry) :=
  let r := convert_qty (pyBaseQty ing) (trimStr (lowerStr ing.unit)) ing.name
  let cat := if ing.category = "" then categorize ing.name else ing.category
  addIngredient ing.name (r.1 / 10 * guests * dishQty) r.2 cat m

/-- The aggregation phase of `generate_final_ingredients`: fold every
template entry of every dish line into `ingredient_totals`. -/
def ingredient_totals (db : DishDB) (b : Booking) : List (String × AggEntry) :=
  b.dishes.foldl
    (fun m line =>
      (get_dish_ingredients_from_db db line.dish_name).foldl
        (processIng b.guests line.quantity) m)
    []

/-- The fixed category priority table; categories outside the table get
the default rank 4 (`category_order.get(x["category"], 4)`). -/
def category_order (c : String) : ℕ :=
  if c = "Vegetables" then 0
  else if c = "Non-Vegetarian" then 1
  else if c = "Spices / Masala" then 2
  else if c = "Dairy" then 3
  else if c = "Fruit" then 4
  else if c = "Grain" then 5
  else if c = "Herbs" then 6
  else if c = "Beverages" then 7
  else if c = "Oil and Fats" then 8
  else if c = "Bakery & Sweets" then 9
  else if c = "Other" then 10
  else 4

/-- Stable insertion of one element into a list sorted by
`category_order`: the element goes after every earlier element whose
rank is ≤ its own, as Python's stable `list.sort` would place it. -/
def insertByRank (x : FinalIng) : List FinalIng → List FinalIng
  | [] => [x]
  | y :: ys =>
    if category_order x.category < category_order y.category then x :: y :: ys
    else y :: insertByRank x ys

/-- Stable sort by `category_order` (models
`final_ingredients.sort(key=lambda x: category_order.get(x["category"], 4))`). -/
def sortByRank (l : List FinalIng) : List FinalIng :=
  l.foldl (fun acc x => insertByRank x acc) []

/-- `generate_final_ingredients` on a booking that exists: aggregate in
base units, convert each total back to display units, and sort by
category rank. -/
def generate_final_ingredients (db : DishDB) (b : Booking) : List FinalIng :=
  sortByRank ((ingredient_totals db b).map (fun p =>
    let d := to_display_unit p.2.quantity p.2.base_unit
    ⟨p.1, d.1, d.2, p.2.category, true⟩))

/-!  Server state and the route handlers used by the claims. -/

/-- Association-list lookup (a MongoDB `find_one` by key). -/
def alookup {α : Type} (k : String) : List (String × α) → Option α
  | [] => none
  | p :: ps => if p.1 = k then some p.2 else alookup k ps

/-- Association-list update of an existing key (`update_one` + `$set`). -/
def aupdate {α : Type} (k : String) (v : α) : List (String × α) → List (String × α)
  | [] => []
  | p :: ps => if p.1 = k then (k, v) :: ps else p :: aupdate k v ps

/-- `update_one(..., upsert=True)`: replace the value when the key
exists, insert a fresh document otherwise. -/
def aupsert {α : Type} (k : String) (v : α) (m : List (String × α)) : List (String × α) :=
  if (alookup k m).isSome then aupdate k v m else m ++ [(k, v)]

/-- The stored state the ingredient routes read and write: the bookings
(`orders`) collection and the `final_ingredients` collection, the latter
keyed by `booking_id` and holding the generated list. -/
structure ServerState where
  bookings : List (String × Booking)
  finals : List (String × List FinalIng)
deriving DecidableEq

/-- Route `POST /booking/<id>/generate`: reject when a final list
already exists, 404 when the booking is missing, otherwise insert the
freshly generated list. -/
def generate_booking_ingredients (db : DishDB) (s : ServerState) (bid : String) :
    Except String (ServerState × List FinalIng) :=
  match alookup bid s.finals with
  | some _ => .error "Final ingredients already exist for this booking"
  | none =>
    match alookup bid s.bookings with
    | none => .error "Booking not found"
    | some b =>
      let fi := generate_final_ingredients db b
      .ok ({ s with finals := s.finals ++ [(bid, fi)] }, fi)

/-- Whether a stored dish line matches the removal target
(the `$pull` filter `{"dish_name": {"$regex": "^name$", "$options": "i"}}`). -/
def dishMatches (target : String) (d : DishLine) : Bool :=
  lowerStr d.dish_name = lowerStr target

/-- Route `DELETE /booking/<id>/remove-dish/<name>`: pull every dish
line whose name matches case-insensitively, then regenerate and upsert
the final list.  When nothing matched (`modified_count == 0`) the
`$pull` left the booking unchanged and the route answers 404 without
touching the final-ingredients collection, modelled as `.error`. -/
def remove_dish_from_booking (db : DishDB) (s : ServerState) (bid dish_name : String) :
    Except String (ServerState × List FinalIng) :=
  match alookup bid s.bookings with
  | none => .error "Booking not found"
  | some b =>
    if b.dishes.any (dishMatches dish_name) then
      let b2 : Booking := { b with dishes := b.dishes.filter (fun d => !dishMatches dish_name d) }
      let fi := generate_final_ingredients db b2
      .ok ({ bookings := aupdate bid b2 s.bookings, finals := aupsert bid fi s.finals }, fi)
    else .error "Dish not found in booking"

/-!  Derived notions used to state the claims. -/

/-- The base-unit total aggregated for ingredient name `n` (0 when the
name never occurred). -/
def aggQuantity (m : List (String × AggEntry)) (n : String) : ℚ :=
  match alookup n m with
  | some e => e.quantity
  | none => 0

/-- The keys of an association list, in insertion order. -/
def keysOf {α : Type} (m : List (String × α)) : List String := m.map Prod.fst

/-- The scaled base-unit contribution of one template entry:
`(converted_qty / 10) * guests * dish_quantity`. -/
def scaledContribution (guests dishQty : ℚ) (ing : TemplateIng) : ℚ :=
  (convert_qty (pyBaseQty ing) (trimStr (lowerStr ing.unit)) ing.name).1 / 10 * guests * dishQty

/-- All independently scaled contributions that dish lines of booking
`b` make to the ingredient name `n` (exact, case-sensitive match). -/
def contributions (db : DishDB) (b : Booking) (n : String) : List ℚ :=
  b.dishes.flatMap (fun line =>
    ((get_dish_ingredients_from_db db line.dish_name).filter (fun i => i.name = n)).map
      (scaledContribution b.guests line.quantity))

/-- The sort key used by `generate_final_ingredients`. -/
def finalRank (i : FinalIng) : ℕ := category_order i.category

/-- Modelled from the spec: the ordered keyword rules of the category
classifier, "applies an ordered set of keyword-membership tests against
the lowercased name", as a rule table (keywords, category). -/
def spec_category_rules : List (List String × String) :=
  [ (["chicken", "mutton", "fish", "egg", "meat"], "Non-Vegetarian"),
    (["onion", "potato", "tomato", "carrot", "beans", "peas", "vegetable", "ginger", "garlic", "mint", "coriander", "curry leaves", "tamarind"], "Vegetables"),
    (["cumin", "turmeric", "chili", "coriander", "garam", "masala", "spices", "mustard", "sambar", "biryani"], "Spices / Masala"),
    (["milk", "cheese", "yogurt", "butter", "cream", "paneer"], "Dairy"),
    (["apple", "banana", "orange", "fruit", "mango", "grapes"], "Fruit"),
    (["rice", "wheat", "flour", "grain", "oats", "barley"], "Grain"),
    (["basil", "oregano", "thyme", "rosemary", "herb"], "Herbs"),
    (["tea", "coffee", "juice", "beverage", "soda"], "Beverages"),
    (["oil", "ghee", "fat", "butter", "lard"], "Oil and Fats"),
    (["sugar", "cake", "bread", "cookie", "sweet", "bakery"], "Bakery & Sweets") ]

/-- Modelled from the spec: "first matching rule wins" — walk an ordered
rule table and return the category of the first rule whose keyword set
matches, `"Other"` when no rule matches. -/
def spec_first_match (name : String) : List (List String × String) → String
  | [] => "Other"
  | r :: rs => if anyWordIn r.1 (lowerStr name) then r.2 else spec_first_match name rs

/-- Modelled from the spec (claim C4): the rank of a category in the
claimed twelve-entry fixed priority order (the claim's "Spices/Masala"
is the category the code spells "Spices / Masala"). -/
def spec_category_rank (c : String) : ℕ :=
  if c = "Vegetables" then 0
  else if c = "Non-Vegetarian" then 1
  else if c = "Spices / Masala" then 2
  else if c = "Dairy" then 3
  else if c = "Fruit" then 4
  else if c = "Dry Fruits" then 5
  else if c = "Grain" then 6
  else if c = "Herbs" then 7
  else if c = "Beverages" then 8
  else if c = "Oil and Fats" then 9
  else if c = "Bakery & Sweets" then 10
  else 11

/-!  Concrete inputs used by witnesses and counterexamples. -/

/-- Dish database of the C1 scenario: one dish, one template entry. -/
def dbC1 : DishDB := [("Veg Biryani", [⟨"Rice", some 1, none, "kg", "Grain"⟩])]

/-- Booking of the C1 scenario: 20 guests, one dish line with
`dish_quantity = 2`. -/
def bC1 : Booking := ⟨20, [⟨"Veg Biryani", 2⟩]⟩

/-- Two dishes whose templates share the name "Onion" (exact case) and
also mention "onion" in a different case. -/
def dbC2 : DishDB :=
  [ ("Dal", [⟨"Onion", some 2, none, "kg", ""⟩, ⟨"onion", some 5, none, "g", ""⟩]),
    ("Curry", [⟨"Onion", some 3, none, "kg", ""⟩]) ]

/-- Booking with two dish lines that both contribute "Onion". -/
def bC2 : Booking := ⟨10, [⟨"Dal", 1⟩, ⟨"Curry", 1⟩]⟩

/-- One dish whose twelve template entries carry, explicitly, all
twelve categories of the claimed priority order, authored in a
scrambled order with the "Dry Fruits" entry before the "Fruit" entry. -/
def dbC4 : DishDB :=
  [("Mega Thali",
    [ ⟨"Gulab Jamun", some 1, none, "kg", "Bakery & Sweets"⟩,
      ⟨"Cashew", some 1, none, "kg", "Dry Fruits"⟩,
      ⟨"Ice", some 1, none, "kg", "Other"⟩,
      ⟨"Mango", some 1, none, "kg", "Fruit"⟩,
      ⟨"Onion", some 1, none, "kg", "Vegetables"⟩,
      ⟨"Rice", some 1, none, "kg", "Grain"⟩,
      ⟨"Paneer", some 1, none, "kg", "Dairy"⟩,
      ⟨"Chicken", some 1, none, "kg", "Non-Vegetarian"⟩,
      ⟨"Basil", some 1, none, "kg", "Herbs"⟩,
      ⟨"Garam Masala", some 1, none, "kg", "Spices / Masala"⟩,
      ⟨"Ghee", some 1, none, "kg", "Oil and Fats"⟩,
      ⟨"Tea", some 1, none, "kg", "Beverages"⟩ ])]

/-- Booking for the C4 counterexample. -/
def bC4 : Booking := ⟨10, [⟨"Mega Thali", 1⟩]⟩

/-- Server state with one booking and no generated list yet. -/
def sW : ServerState := ⟨[("b1", bC1)], []⟩

/-- The final-ingredient list inserted by the C6 witness's first call. -/
def fiW : List FinalIng := generate_final_ingredients dbC1 bC1

/-- The server state after the C6 witness's first successful generate. -/
def s2W : ServerState := { sW with finals := sW.finals ++ [("b1", fiW)] }

/-!  Helper lemmas about the aggregation map. -/

/-- Accumulating one contribution adds `q` to exactly the matching key. -/
theorem aggQuantity_addIngredient (nm n : String)
    (q : ℚ) (bu cat : String) (m : List (String × AggEntry)) :
    aggQuantity (addIngredient nm q bu cat m) n
      = aggQuantity m n + (if n = nm then q else 0) := by
  induction m with
  | nil =>
    by_cases h : nm = n
    · subst h; simp [addIngredient, aggQuantity, alookup]
    · rw [if_neg (fun hh : n = nm => h hh.symm)]
      simp [addIngredient, aggQuantity, alookup, h]
  | cons p ps ih =>
    by_cases hp : p.1 = nm
    · subst hp
      by_cases hn : p.1 = n
      · subst hn
        simp [addIngredient, aggQuantity, alookup]
      · rw [if_neg (fun hh : n = p.1 => hn hh.symm)]
        simp [addIngredient, aggQuantity, alookup, hn]
    · by_cases hn : p.1 = n
      · subst hn
        rw [if_neg (fun hh : p.1 = nm => hp hh)]
        simp [addIngredient, aggQuantity, alookup, hp]
      · simp only [addIngredient, if_neg hp]
        simp only [aggQuantity, alookup, if_neg hn]
        exact ih

/-- `addIngredient` appends the key exactly when it is new. -/
theorem keysOf_addIngredient (nm : String) (q : ℚ) (bu cat : String)
    (m : List (String × AggEntry)) :
    keysOf (addIngredient nm q bu cat m)
      = if nm ∈ keysOf m then keysOf m else keysOf m ++ [nm] := by
  induction m with
  | nil => simp [addIngredient, keysOf]
  | cons p ps ih =>
    by_cases hp : p.1 = nm
    · subst hp
      simp [addIngredient, keysOf]
    · simp only [addIngredient, if_neg hp, keysOf, List.map_cons] at ih ⊢
      rw [ih]
      have hne : ¬ nm = p.1 := fun hh => hp hh.symm
      by_cases hm : nm ∈ ps.map Prod.fst
      · simp [hm, hne]
      · simp [hm, hne]

/-- Key membership after one accumulation step. -/
theorem mem_keysOf_addIngredient (nm n : String) (q : ℚ) (bu cat : String)
    (m : List (String × AggEntry)) :
    n ∈ keysOf (addIngredient nm q bu cat m) ↔ n ∈ keysOf m ∨ n = nm := by
  rw [keysOf_addIngredient]
  by_cases hm : nm ∈ keysOf m
  · rw [if_pos hm]
    constructor
    · exact Or.inl
    · rintro (h | rfl)
      · exact h
      · exact hm
  · rw [if_neg hm]
    simp

/-- Accumulation keeps the keys of the mapping distinct. -/
theorem nodup_keysOf_addIngredient (nm : String) (q : ℚ) (bu cat : String)
    (m : List (String × AggEntry)) (h : (keysOf m).Nodup) :
    (keysOf (addIngredient nm q bu cat m)).Nodup := by
  rw [keysOf_addIngredient]
  by_cases hm : nm ∈ keysOf m
  · rwa [if_pos hm]
  · rw [if_neg hm]
    simp [List.nodup_append, h, hm]

/-- In a mapping with distinct keys, each name owns at most one entry. -/
theorem countP_keys_eq (n : String) (m : List (String × AggEntry))
    (h : (keysOf m).Nodup) :
    m.countP (fun p => p.1 = n) = if n ∈ keysOf m then 1 else 0 := by
  induction m with
  | nil => simp [keysOf]
  | cons p ps ih =>
    simp only [keysOf, List.map_cons, List.nodup_cons] at h
    rw [List.countP_cons]
    by_cases hp : p.1 = n
    · subst hp
      have hnotin : p.1 ∉ keysOf ps := h.1
      rw [ih h.2, if_neg hnotin]
      simp [keysOf, List.mem_cons]
    · have hnp : ¬ n = p.1 := fun hh => hp hh.symm
      rw [ih h.2]
      have hmemiff : n ∈ keysOf (p :: ps) ↔ n ∈ keysOf ps := by
        simp [keysOf, List.mem_cons, hnp]
      by_cases hm : n ∈ keysOf ps
      · rw [if_pos hm, if_pos (hmemiff.mpr hm)]
        simp [hp]
      · rw [if_neg hm, if_neg (fun hh => hm (hmemiff.mp hh))]
        simp [hp]

/-- The inferred fallback unit always converts. -/
theorem to_base_unit_infer_unit_isSome (q : ℚ) (n : String) :
    (to_base_unit q (infer_unit n)).isSome := by
  unfold infer_unit
  repeat' split
  all_goals rfl

/-- Folding the template entries of one dish adds exactly the scaled
contributions of the entries carrying the name `n`. -/
theorem aggQuantity_foldl_processIng (g q : ℚ) (n : String) (l : List TemplateIng) :
    ∀ m, aggQuantity (l.foldl (processIng g q) m) n
      = aggQuantity m n
        + ((l.filter (fun i => i.name = n)).map (scaledContribution g q)).sum := by
  induction l with
  | nil => intro m; simp
  | cons i is ih =>
    intro m
    rw [List.foldl_cons, ih]
    show aggQuantity (processIng g q m i) n + _ = _
    unfold processIng
    rw [aggQuantity_addIngredient]
    by_cases h : i.name = n
    · subst h
      rw [if_pos rfl, List.filter_cons_of_pos (by simp)]
      simp [scaledContribution]
      ring
    · rw [if_neg (fun hh : n = i.name => h hh.symm), List.filter_cons_of_neg (by simp [h])]
      ring

/-- A name is a key after folding one dish iff it was a key before or
some processed entry carries it. -/
theorem mem_keysOf_foldl_processIng (g q : ℚ) (n : String) (l : List TemplateIng) :
    ∀ m, n ∈ keysOf (l.foldl (processIng g q) m)
      ↔ n ∈ keysOf m ∨ ∃ i ∈ l, i.name = n := by
  induction l with
  | nil => intro m; simp
  | cons i is ih =>
    intro m
    rw [List.foldl_cons, ih]
    show (n ∈ keysOf (processIng g q m i) ∨ _) ↔ _
    unfold processIng
    rw [mem_keysOf_addIngredient]
    constructor
    · rintro ((h | rfl) | h)
      · exact Or.inl h
      · exact Or.inr ⟨i, List.mem_cons_self i is, rfl⟩
      · obtain ⟨j, hj, hjn⟩ := h
        exact Or.inr ⟨j, List.mem_cons_of_mem i hj, hjn⟩
    · rintro (h | ⟨j, hj, hjn⟩)
      · exact Or.inl (Or.inl h)
      · rcases List.mem_cons.mp hj with rfl | hj2
        · exact Or.inl (Or.inr hjn.symm)
        · exact Or.inr ⟨j, hj2, hjn⟩

/-- Folding one dish preserves distinctness of the keys. -/
theorem nodup_keysOf_foldl_processIng (g q : ℚ) (l : List TemplateIng) :
    ∀ m, (keysOf m).Nodup → (keysOf (l.foldl (processIng g q) m)).Nodup := by
  induction l with
  | nil => intro m h; simpa using h
  | cons i is ih =>
    intro m h
    rw [List.foldl_cons]
    exact ih _ (by unfold processIng; exact nodup_keysOf_addIngredient _ _ _ _ _ h)

/-- The aggregated base-unit total of a name is the sum of all its
independently scaled contributions. -/
theorem aggQuantity_ingredient_totals (db : DishDB) (b : Booking) (n : String) :
    aggQuantity (ingredient_totals db b) n = (contributions db b n).sum := by
  unfold ingredient_totals contributions
  have main : ∀ (ds : List DishLine) (m : List (String × AggEntry)),
      aggQuantity (ds.foldl (fun m line =>
          (get_dish_ingredients_from_db db line.dish_name).foldl
            (processIng b.guests line.quantity) m) m) n
        = aggQuantity m n
          + (ds.flatMap (fun line =>
              (((get_dish_ingredients_from_db db line.dish_name).filter
                  (fun i => i.name = n)).map
                (scaledContribution b.guests line.quantity)))).sum := by
    intro ds
    induction ds with
    | nil => intro m; simp
    | cons d rest ih =>
      intro m
      rw [List.foldl_cons, ih, aggQuantity_foldl_processIng]
      rw [List.flatMap_cons, List.sum_append]
      ring
  have := main b.dishes []
  simpa [aggQuantity, alookup] using this

/-- A name appears among the aggregation keys iff some dish line's
template mentions it. -/
theorem mem_keysOf_ingredient_totals (db : DishDB) (b : Booking) (n : String) :
    n ∈ keysOf (ingredient_totals db b)
      ↔ ∃ line ∈ b.dishes, ∃ i ∈ get_dish_ingredients_from_db db line.dish_name, i.name = n := by
  unfold ingredient_totals
  have main : ∀ (ds : List DishLine) (m : List (String × AggEntry)),
      n ∈ keysOf (ds.foldl (fun m line =>
          (get_dish_ingredients_from_db db line.dish_name).foldl
            (processIng b.guests line.quantity) m) m)
        ↔ n ∈ keysOf m
          ∨ ∃ line ∈ ds, ∃ i ∈ get_dish_ingredients_from_db db line.dish_name, i.name = n := by
    intro ds
    induction ds with
    | nil => intro m; simp
    | cons d rest ih =>
      intro m
      rw [List.foldl_cons, ih, mem_keysOf_foldl_processIng]
      constructor
      · rintro ((h | ⟨i, hi, hin⟩) | ⟨line, hl, hrest⟩)
        · exact Or.inl h
        · exact Or.inr ⟨d, List.mem_cons_self d rest, i, hi, hin⟩
        · exact Or.inr ⟨line, List.mem_cons_of_mem d hl, hrest⟩
      · rintro (h | ⟨line, hl, hrest⟩)
        · exact Or.inl (Or.inl h)
        · rcases List.mem_cons.mp hl with rfl | hl2
          · exact Or.inl (Or.inr hrest)
          · exact Or.inr ⟨line, hl2, hrest⟩
  have := main b.dishes []
  simpa [keysOf] using this

/-- The aggregation map never holds two entries for one name. -/
theorem nodup_keysOf_ingredient_totals (db : DishDB) (b : Booking) :
    (keysOf (ingredient_totals db b)).Nodup := by
  unfold ingredient_totals
  have main : ∀ (ds : List DishLine) (m : List (String × AggEntry)),
      (keysOf m).Nodup →
      (keysOf (ds.foldl (fun m line =>
          (get_dish_ingredients_from_db db line.dish_name).foldl
            (processIng b.guests line.quantity) m) m)).Nodup := by
    intro ds
    induction ds with
    | nil => intro m h; simpa using h
    | cons d rest ih =>
      intro m h
      rw [List.foldl_cons]
      exact ih _ (nodup_keysOf_foldl_processIng _ _ _ _ h)
  exact main b.dishes [] (by simp [keysOf])

/-- A name has a nonempty contribution list iff some dish line's
template mentions it. -/
theorem contributions_ne_nil_iff (db : DishDB) (b : Booking) (n : String) :
    contributions db b n ≠ []
      ↔ ∃ line ∈ b.dishes, ∃ i ∈ get_dish_ingredients_from_db db line.dish_name, i.name = n := by
  unfold contributions
  constructor
  · intro h
    rcases List.exists_mem_of_ne_nil _ h with ⟨x, hx⟩
    rw [List.mem_flatMap] at hx
    obtain ⟨line, hl, hx2⟩ := hx
    rw [List.mem_map] at hx2
    obtain ⟨i, hi, _⟩ := hx2
    rw [List.mem_filter] at hi
    exact ⟨line, hl, i, hi.1, by simpa using hi.2⟩
  · rintro ⟨line, hl, i, hi, hin⟩ hnil
    have : scaledContribution b.guests line.quantity i
        ∈ (b.dishes.flatMap (fun line =>
            (((get_dish_ingredients_from_db db line.dish_name).filter
                (fun i => i.name = n)).map
              (scaledContribution b.guests line.quantity)))) := by
      rw [List.mem_flatMap]
      exact ⟨line, hl, List.mem_map_of_mem _ (List.mem_filter.mpr ⟨hi, by simpa using hin⟩)⟩
    rw [hnil] at this
    exact absurd this (List.not_mem_nil _)

/-!  Helper lemmas about the stable category sort. -/

/-- Stable insertion only reorders the inserted element to the front. -/
theorem insertByRank_perm (x : FinalIng) (l : List FinalIng) :
    (insertByRank x l).Perm (x :: l) := by
  induction l with
  | nil => exact List.Perm.refl _
  | cons y ys ih =>
    unfold insertByRank
    split
    · exact List.Perm.refl _
    · exact (ih.cons y).trans (List.Perm.swap x y ys)

/-- The category sort permutes its input. -/
theorem sortByRank_perm (l : List FinalIng) : (sortByRank l).Perm l := by
  have main : ∀ (l acc : List FinalIng),
      (l.foldl (fun a x => insertByRank x a) acc).Perm (l ++ acc) := by
    intro l
    induction l with
    | nil => intro acc; simp
    | cons x xs ih =>
      intro acc
      rw [List.foldl_cons]
      refine (ih _).trans ?_
      refine (List.Perm.append_left xs (insertByRank_perm x acc)).trans ?_
      exact List.perm_middle
  simpa [sortByRank] using main l []

/-- Stable insertion preserves sortedness by rank. -/
theorem pairwise_insertByRank (x : FinalIng) (l : List FinalIng)
    (h : l.Pairwise (fun a c => finalRank a ≤ finalRank c)) :
    (insertByRank x l).Pairwise (fun a c => finalRank a ≤ finalRank c) := by
  induction l with
  | nil => simp [insertByRank]
  | cons y ys ih =>
    rw [List.pairwise_cons] at h
    unfold insertByRank
    split
    · next hlt =>
      refine List.Pairwise.cons ?_ (List.Pairwise.cons h.1 h.2)
      intro z hz
      rcases List.mem_cons.mp hz with rfl | hz2
      · exact le_of_lt hlt
      · exact le_of_lt (lt_of_lt_of_le hlt (h.1 z hz2))
    · next hge =>
      refine List.Pairwise.cons ?_ (ih h.2)
      intro z hz
      rcases List.mem_cons.mp ((insertByRank_perm x ys).mem_iff.mp hz) with rfl | hz2
      · exact Nat.le_of_not_lt hge
      · exact h.1 z hz2

/-- The category sort produces a list sorted by rank. -/
theorem sortByRank_pairwise (l : List FinalIng) :
    (sortByRank l).Pairwise (fun a c => finalRank a ≤ finalRank c) := by
  have main : ∀ (l acc : List FinalIng),
      acc.Pairwise (fun a c => finalRank a ≤ finalRank c) →
      (l.foldl (fun a x => insertByRank x a) acc).Pairwise
        (fun a c => finalRank a ≤ finalRank c) := by
    intro l
    induction l with
    | nil => intro acc h; simpa using h
    | cons x xs ih =>
      intro acc h
      rw [List.foldl_cons]
      exact ih _ (pairwise_insertByRank x acc h)
  exact main l [] (by simp)

/-!  Helper lemmas about zero quantities and association lists. -/

/-- Every successful conversion of a zero quantity yields zero. -/
theorem to_base_unit_fst_zero (u : String) (r : ℚ × String)
    (h : to_base_unit 0 u = some r) : r.1 = 0 := by
  simp only [to_base_unit] at h
  generalize trimStr (lowerStr u) = u2 at h
  by_cases c1 : u2 ∈ ["kg", "kilogram", "kilograms"]
  · rw [if_pos c1] at h
    injection h with h2
    subst h2
    norm_num
  · rw [if_neg c1] at h
    by_cases c2 : u2 ∈ ["g", "gm", "gram", "grams"]
    · rw [if_pos c2] at h
      injection h with h2
      subst h2
      norm_num
    · rw [if_neg c2] at h
      by_cases c3 : u2 ∈ ["oz", "ounce", "ounces"]
      · rw [if_pos c3] at h
        injection h with h2
        subst h2
        norm_num
      · rw [if_neg c3] at h
        by_cases c4 : u2 ∈ ["lb", "pound", "pounds"]
        · rw [if_pos c4] at h
          injection h with h2
          subst h2
          norm_num
        · rw [if_neg c4] at h
          by_cases c5 : u2 ∈ ["mg", "milligram", "milligrams"]
          · rw [if_pos c5] at h
            injection h with h2
            subst h2
            norm_num
          · rw [if_neg c5] at h
            by_cases c6 : u2 ∈ ["l", "ltr", "liter", "liters", "litre", "litres"]
            · rw [if_pos c6] at h
              injection h with h2
              subst h2
              norm_num
            · rw [if_neg c6] at h
              by_cases c7 : u2 ∈ ["ml", "milliliter", "milliliters", "millilitre", "millilitres"]
              · rw [if_pos c7] at h
                injection h with h2
                subst h2
                norm_num
              · rw [if_neg c7] at h
                by_cases c8 : u2 ∈ ["piece", "pieces", "pcs", "pc"]
                · rw [if_pos c8] at h
                  injection h with h2
                  subst h2
                  norm_num
                · rw [if_neg c8] at h
                  by_cases c9 : u2 ∈ ["packet", "packets", "pkt"]
                  · rw [if_pos c9] at h
                    injection h with h2
                    subst h2
                    norm_num
                  · rw [if_neg c9] at h
                    by_cases c10 : u2 ∈ ["bunch", "bunches"]
                    · rw [if_pos c10] at h
                      injection h with h2
                      subst h2
                      norm_num
                    · rw [if_neg c10] at h
                      by_cases c11 : u2 ∈ ["dozen", "dozens"]
                      · rw [if_pos c11] at h
                        injection h with h2
                        subst h2
                        norm_num
                      · rw [if_neg c11] at h
                        by_cases c12 : u2 ∈ ["slice", "slices"]
                        · rw [if_pos c12] at h
                          injection h with h2
                          subst h2
                          norm_num
                        · rw [if_neg c12] at h
                          by_cases c13 : u2 ∈ ["can", "cans"]
                          · rw [if_pos c13] at h
                            injection h with h2
                            subst h2
                            norm_num
                          · rw [if_neg c13] at h
                            by_cases c14 : u2 ∈ ["bottle", "bottles"]
                            · rw [if_pos c14] at h
                              injection h with h2
                              subst h2
                              norm_num
                            · rw [if_neg c14] at h
                              by_cases c15 : u2 ∈ ["cup", "cups"]
                              · rw [if_pos c15] at h
                                injection h with h2
                                subst h2
                                norm_num
                              · rw [if_neg c15] at h
                                by_cases c16 : u2 ∈ ["tbsp", "tablespoon", "tablespoons"]
                                · rw [if_pos c16] at h
                                  injection h with h2
                                  subst h2
                                  norm_num
                                · rw [if_neg c16] at h
                                  by_cases c17 : u2 ∈ ["tsp", "teaspoon", "teaspoons"]
                                  · rw [if_pos c17] at h
                                    injection h with h2
                                    subst h2
                                    norm_num
                                  · rw [if_neg c17] at h
                                    exact Option.noConfusion h

/-- The conversion step maps a zero input quantity to zero. -/
theorem convert_qty_fst_zero (u n : String) : (convert_qty 0 u n).1 = 0 := by
  unfold convert_qty
  cases h : to_base_unit 0 u with
  | some r => exact to_base_unit_fst_zero u r h
  | none =>
    cases h2 : to_base_unit 0 (infer_unit n) with
    | some r => simpa using to_base_unit_fst_zero _ r h2
    | none => simp

/-- Display conversion maps a zero base quantity to zero. -/
theorem to_display_unit_fst_zero (bu : String) : (to_display_unit 0 bu).1 = 0 := by
  unfold to_display_unit
  repeat' split
  all_goals norm_num [round2, round_eq]

/-- Appending a fresh key to an association list makes it found. -/
theorem alookup_append_self {α : Type} (k : String) (v : α) (l : List (String × α))
    (h : alookup k l = none) : alookup k (l ++ [(k, v)]) = some v := by
  induction l with
  | nil => simp [alookup]
  | cons p ps ih =>
    rw [List.cons_append]
    simp only [alookup] at h ⊢
    by_cases hp : p.1 = k
    · rw [if_pos hp] at h; exact absurd h (by simp)
    · rw [if_neg hp] at h ⊢
      exact ih h

/-!  The claims. -/

/-- Claim C1: for a booking with 20 guests and one dish line
"Veg Biryani" with dish_quantity 2, whose template holds the single
entry (Rice, 1 per 10 guests, kg, Grain), generation produces exactly
one entry Rice with display quantity 4.0 kg, category Grain, checked:
the base conversion gives 1000 g, the scaling law gives
(1000 / 10) * 20 * 2 = 4000 g, and display conversion gives 4.0 kg. -/
theorem C1_generate_scaled_scenario :
    generate_final_ingredients dbC1 bC1 = [⟨"Rice", 4, "kg", "Grain", true⟩] := by
  norm_num +decide [generate_final_ingredients, ingredient_totals, processIng, convert_qty,
    to_base_unit, pyBaseQty, addIngredient, to_display_unit, round2, round_eq,
    sortByRank, insertByRank, category_order, get_dish_ingredients_from_db,
    lowerStr, trimStr, dbC1, bC1]

/-- Claim C2: whenever dish lines contribute at least one (in particular
two or more) template entries with the identical, case-sensitive name,
the aggregated base-unit quantity for that name is the sum of each
line's independently scaled contribution, and the generated list holds
exactly one entry with that name; names differing only in case are
distinct `n` here, hence separate entries and never merged. -/
theorem C2_exact_name_aggregation (db : DishDB) (b : Booking) (n : String)
    (h : contributions db b n ≠ []) :
    aggQuantity (ingredient_totals db b) n = (contributions db b n).sum ∧
    (generate_final_ingredients db b).countP (fun i => i.name = n) = 1 := by
  refine ⟨aggQuantity_ingredient_totals db b n, ?_⟩
  unfold generate_final_ingredients
  rw [(sortByRank_perm _).countP_eq, List.countP_map]
  have hfun : ((fun i : FinalIng => decide (i.name = n)) ∘
      (fun p : String × AggEntry =>
        let d := to_display_unit p.2.quantity p.2.base_unit
        (⟨p.1, d.1, d.2, p.2.category, true⟩ : FinalIng)))
      = fun p : String × AggEntry => decide (p.1 = n) := rfl
  rw [hfun, countP_keys_eq n _ (nodup_keysOf_ingredient_totals db b),
    if_pos ((mem_keysOf_ingredient_totals db b n).mpr
      ((contributions_ne_nil_iff db b n).mp h))]

/-- Witness for C2: the booking bC2 contributes "Onion" twice (2 kg from
Dal and 3 kg from Curry) and "onion" once; the aggregated "Onion" total
is the sum of its contributions and it owns exactly one output entry. -/
theorem C2_exact_name_aggregation_witness :
    aggQuantity (ingredient_totals dbC2 bC2) "Onion"
        = (contributions dbC2 bC2 "Onion").sum ∧
      (generate_final_ingredients dbC2 bC2).countP (fun i => i.name = "Onion") = 1 :=
  C2_exact_name_aggregation dbC2 bC2 "Onion" (by
    norm_num +decide [contributions, scaledContribution, convert_qty, to_base_unit,
      pyBaseQty, get_dish_ingredients_from_db, lowerStr, trimStr, dbC2, bC2])

/-- Claim C3: when `to_base_unit` rejects the template's unit, the
conversion step never fails: it infers a unit from the ingredient
name's keywords (milk → litre-derived ml base; oil/ghee/butter → ml;
rice/flour/sugar/salt → kg-derived g; onion/potato/tomato/vegetable →
kg-derived g; cumin/turmeric/chili/coriander → g; else → g) and always
yields a numeric quantity. -/
theorem C3_unit_fallback_never_fails (qty : ℚ) (unit name : String)
    (h : to_base_unit qty unit = none) :
    convert_qty qty unit name =
      if strContains (lowerStr name) "milk" then (qty * 1000, "ml")
      else if anyWordIn ["oil", "ghee", "butter"] (lowerStr name) then (qty, "ml")
      else if anyWordIn ["rice", "flour", "sugar", "salt"] (lowerStr name) then (qty * 1000, "g")
      else if anyWordIn ["onion", "potato", "tomato", "vegetable"] (lowerStr name) then (qty * 1000, "g")
      else if anyWordIn ["cumin", "turmeric", "chili", "coriander"] (lowerStr name) then (qty, "g")
      else (qty, "g") := by
  unfold convert_qty
  rw [h]
  unfold infer_unit
  repeat' split
  all_goals (try rfl)
  all_goals simp_all

/-- Witness for C3: the empty unit string is rejected by `to_base_unit`,
and the fallback converts 5 for "Milk Powder" via litre to 5000 ml. -/
theorem C3_unit_fallback_witness : convert_qty 5 "" "Milk Powder" = (5000, "ml") := by
  rw [C3_unit_fallback_never_fails 5 "" "Milk Powder" (by rfl)]
  norm_num +decide [strContains, lowerStr, listContains]

/-- Counterexample to claim C4: a booking whose aggregated ingredients
span all twelve categories of the claimed priority order, with the
"Dry Fruits" entry authored before the "Fruit" entry.  The generated
list does place the eleven recognized categories in their fixed
positions, but keeps "Dry Fruits" before "Fruit" — both carry the
default rank 4 of `category_order` and the stable sort preserves their
input order — so the output is not ordered by the claimed fixed
twelve-category priority, which puts Fruit strictly before Dry Fruits. -/
theorem C4_fixed_order_counterexample :
    ((generate_final_ingredients dbC4 bC4).map (fun i => i.category))
        = ["Vegetables", "Non-Vegetarian", "Spices / Masala", "Dairy",
           "Dry Fruits", "Fruit", "Grain", "Herbs", "Beverages",
           "Oil and Fats", "Bakery & Sweets", "Other"] ∧
      ¬ ((generate_final_ingredients dbC4 bC4).Pairwise
          (fun a c => spec_category_rank a.category ≤ spec_category_rank c.category)) := by
  have h : generate_final_ingredients dbC4 bC4
      = [⟨"Onion", 1, "kg", "Vegetables", true⟩,
         ⟨"Chicken", 1, "kg", "Non-Vegetarian", true⟩,
         ⟨"Garam Masala", 1, "kg", "Spices / Masala", true⟩,
         ⟨"Paneer", 1, "kg", "Dairy", true⟩,
         ⟨"Cashew", 1, "kg", "Dry Fruits", true⟩,
         ⟨"Mango", 1, "kg", "Fruit", true⟩,
         ⟨"Rice", 1, "kg", "Grain", true⟩,
         ⟨"Basil", 1, "kg", "Herbs", true⟩,
         ⟨"Tea", 1, "kg", "Beverages", true⟩,
         ⟨"Ghee", 1, "kg", "Oil and Fats", true⟩,
         ⟨"Gulab Jamun", 1, "kg", "Bakery & Sweets", true⟩,
         ⟨"Ice", 1, "kg", "Other", true⟩] := by
    norm_num +decide [generate_final_ingredients, ingredient_totals, processIng, convert_qty,
      to_base_unit, pyBaseQty, addIngredient, to_display_unit, round2, round_eq,
      sortByRank, insertByRank, category_order, get_dish_ingredients_from_db,
      lowerStr, trimStr, dbC4, bC4]
  rw [h]
  refine ⟨rfl, fun hp => ?_⟩
  have h5 := (List.pairwise_cons.mp (List.pairwise_cons.mp (List.pairwise_cons.mp
    (List.pairwise_cons.mp (List.pairwise_cons.mp hp).2).2).2).2).1
  have := h5 _ (List.mem_cons_self _ _)
  simp [spec_category_rank] at this

/-- Claim C4 as amended: every generated list is sorted by the code's
eleven-entry `category_order` rank, where any category outside the
table — "Dry Fruits" included — gets the default mid-pack rank 4
(the same rank as Fruit), ties keeping their first-contribution order. -/
theorem C4_sorted_by_code_rank (db : DishDB) (b : Booking) :
    (generate_final_ingredients db b).Pairwise
      (fun a c => category_order a.category ≤ category_order c.category) := by
  have := sortByRank_pairwise ((ingredient_totals db b).map (fun p =>
    let d := to_display_unit p.2.quantity p.2.base_unit
    (⟨p.1, d.1, d.2, p.2.category, true⟩ : FinalIng)))
  exact this

/-- Counterexample to claim C5: the large-volume display unit is the
string "ltr", not "litre", and a pass-through unit keeps its value
unrounded (1.239 stays 1.239 although rounding to 2 decimals would
give 1.24). -/
theorem C5_display_unit_counterexample :
    to_display_unit 1500 "ml" = (3/2, "ltr") ∧ ("ltr" : String) ≠ "litre" ∧
    to_display_unit (1239/1000) "pcs" = (1239/1000, "pcs") ∧
    round2 (1239/1000) ≠ 1239/1000 := by
  refine ⟨?_, by decide, by norm_num +decide [to_display_unit], ?_⟩
  · norm_num +decide [to_display_unit, round2, round_eq]
  · norm_num [round2, round_eq]

/-- Claim C5 as amended: for base unit g the display is kg (value/1000,
rounded to 2 decimals) when the value is ≥ 1000 and g (rounded)
otherwise; for base unit ml it is "ltr" (value/1000, rounded) when
≥ 1000 and ml (rounded) otherwise; every other base unit passes both the
value (unrounded) and the unit through unchanged. -/
theorem C5_display_unit_amended (v : ℚ) (u : String) :
    to_display_unit v "g"
        = (if v ≥ 1000 then (round2 (v / 1000), "kg") else (round2 v, "g")) ∧
      to_display_unit v "ml"
        = (if v ≥ 1000 then (round2 (v / 1000), "ltr") else (round2 v, "ml")) ∧
      (u ≠ "g" → u ≠ "ml" → to_display_unit v u = (v, u)) := by
  refine ⟨by simp +decide [to_display_unit], by simp +decide [to_display_unit],
    fun h1 h2 => ?_⟩
  simp [to_display_unit, h1, h2]

/-- Witness for C5 as amended: the pass-through branch at a count unit. -/
theorem C5_display_unit_amended_witness : to_display_unit 7 "pcs" = (7, "pcs") :=
  (C5_display_unit_amended 7 "pcs").2.2 (by decide) (by decide)

/-- Claim C6: once generate has succeeded for a booking id, calling it
again without an intervening delete is rejected with the already-exists
error, and the stored final list of the first call is still found
unmodified. -/
theorem C6_generate_guard (db : DishDB) (s : ServerState) (bid : String)
    (s2 : ServerState) (fi : List FinalIng)
    (h : generate_booking_ingredients db s bid = .ok (s2, fi)) :
    generate_booking_ingredients db s2 bid
        = .error "Final ingredients already exist for this booking" ∧
      alookup bid s2.finals = some fi := by
  unfold generate_booking_ingredients at h ⊢
  cases hf : alookup bid s.finals with
  | some v => rw [hf] at h; exact absurd h (by simp)
  | none =>
    rw [hf] at h
    cases hb : alookup bid s.bookings with
    | none => rw [hb] at h; exact absurd h (by simp)
    | some b =>
      rw [hb] at h
      simp only [Except.ok.injEq, Prod.mk.injEq] at h
      obtain ⟨hs2, hfi⟩ := h
      subst hs2
      subst hfi
      have hl : alookup bid (s.finals ++ [(bid, generate_final_ingredients db b)])
          = some (generate_final_ingredients db b) :=
        alookup_append_self bid _ s.finals hf
      constructor
      · show (match alookup bid (s.finals ++ [(bid, generate_final_ingredients db b)]) with
          | some _ => _
          | none => _) = _
        rw [hl]
      · exact hl

/-- Witness for C6: generating twice for booking "b1" of `sW`; the
second call errors and the first stored list is intact. -/
theorem C6_generate_guard_witness :
    generate_booking_ingredients dbC1 s2W "b1"
        = .error "Final ingredients already exist for this booking" ∧
      alookup "b1" s2W.finals = some fiW :=
  C6_generate_guard dbC1 sW "b1" s2W fiW (by rfl)

/-- Claim C7: remove-dish removes every dish line whose name matches the
given name case-insensitively and regenerates the final list from the
remaining lines (an upsert); when no line matches, the route signals the
not-found failure and no new state is produced, the stored booking and
final list staying as they were. -/
theorem C7_remove_dish_spec (db : DishDB) (s : ServerState) (bid dname : String)
    (b : Booking) (hb : alookup bid s.bookings = some b) :
    (b.dishes.any (dishMatches dname) = false →
       remove_dish_from_booking db s bid dname = .error "Dish not found in booking") ∧
    (b.dishes.any (dishMatches dname) = true →
       remove_dish_from_booking db s bid dname =
         .ok ({ bookings := aupdate bid
                  { b with dishes := b.dishes.filter (fun d => !dishMatches dname d) }
                  s.bookings,
                finals := aupsert bid
                  (generate_final_ingredients db
                    { b with dishes := b.dishes.filter (fun d => !dishMatches dname d) })
                  s.finals },
              generate_final_ingredients db
                { b with dishes := b.dishes.filter (fun d => !dishMatches dname d) })) := by
  unfold remove_dish_from_booking
  rw [hb]
  constructor
  · intro h
    show (if b.dishes.any (dishMatches dname) = true then _ else _) = _
    rw [h]
    simp
  · intro h
    show (if b.dishes.any (dishMatches dname) = true then _ else _) = _
    rw [h]
    simp

/-- Witness for C7: removing a dish that booking "b1" does not hold is
the signalled not-found failure. -/
theorem C7_remove_dish_witness :
    remove_dish_from_booking dbC1 sW "b1" "Paneer" = .error "Dish not found in booking" :=
  (C7_remove_dish_spec dbC1 sW "b1" "Paneer" bC1 (by rfl)).1 (by rfl)

/-- Claim C8: with no explicit category, the classifier tests the
lowercased name against its keyword rules in the fixed order
Non-Vegetarian, Vegetables, Spices/Masala, Dairy, Fruit, Grain, Herbs,
Beverages, Oil and Fats, Bakery & Sweets, else Other, first match
winning — so "milk" and names containing "butter" land in Dairy (the
Dairy rule precedes Oil and Fats), and an unmatched name lands in
Other. -/
theorem C8_classifier_first_match :
    (∀ name, categorize name = spec_first_match name spec_category_rules) ∧
    categorize "milk" = "Dairy" ∧ categorize "Butter" = "Dairy" ∧
    categorize "xyz" = "Other" :=
  ⟨fun _ => rfl, rfl, rfl, rfl⟩

/-- Claim C9: when remove-dish removes at least one line of a booking
that has no stored final list yet, the regeneration is written with
upsert semantics, so a final list is created for the booking — a second
creation path that bypasses the generate route's already-exists guard. -/
theorem C9_remove_dish_creates_final (db : DishDB) (s : ServerState)
    (bid dname : String) (b : Booking)
    (hb : alookup bid s.bookings = some b)
    (hf : alookup bid s.finals = none)
    (hm : b.dishes.any (dishMatches dname) = true) :
    ∃ s2 fi, remove_dish_from_booking db s bid dname = .ok (s2, fi) ∧
      alookup bid s2.finals = some fi := by
  refine ⟨{ bookings := aupdate bid
              { b with dishes := b.dishes.filter (fun d => !dishMatches dname d) }
              s.bookings,
            finals := aupsert bid
              (generate_final_ingredients db
                { b with dishes := b.dishes.filter (fun d => !dishMatches dname d) })
              s.finals },
          generate_final_ingredients db
            { b with dishes := b.dishes.filter (fun d => !dishMatches dname d) },
          ?_, ?_⟩
  · unfold remove_dish_from_booking
    rw [hb]
    show (if b.dishes.any (dishMatches dname) = true then _ else _) = _
    rw [hm]
    simp
  · show alookup bid (aupsert bid _ s.finals) = _
    unfold aupsert
    rw [hf]
    simp only [Option.isSome_none, Bool.false_eq_true, if_false]
    exact alookup_append_self bid _ s.finals hf

/-- Witness for C9: booking "b1" of `sW` has no final list; removing
"veg biryani" (case-insensitively matching "Veg Biryani") creates one. -/
theorem C9_remove_dish_creates_final_witness :
    ∃ s2 fi, remove_dish_from_booking dbC1 sW "b1" "veg biryani" = .ok (s2, fi) ∧
      alookup "b1" s2.finals = some fi :=
  C9_remove_dish_creates_final dbC1 sW "b1" "veg biryani" bC1 (by rfl) (by rfl) (by rfl)

/-- Claim C10: a template entry carrying neither quantity key is not
rejected: its baseline defaults to 0, it contributes a zero scaled
quantity, and it appears in the generated output with quantity 0. -/
theorem C10_missing_quantity_zero (nm u cat dn : String) (g q : ℚ) :
    (generate_final_ingredients [(dn, [⟨nm, none, none, u, cat⟩])] ⟨g, [⟨dn, q⟩]⟩).map
        (fun i => (i.name, i.quantity)) = [(nm, 0)] := by
  have hdb : get_dish_ingredients_from_db [(dn, [⟨nm, none, none, u, cat⟩])] dn
      = [⟨nm, none, none, u, cat⟩] := by
    unfold get_dish_ingredients_from_db
    rw [List.find?_cons_of_pos _ (by simp)]
  have hq : pyBaseQty ⟨nm, none, none, u, cat⟩ = 0 := by simp [pyBaseQty]
  unfold generate_final_ingredients ingredient_totals
  simp only [List.foldl_cons, List.foldl_nil, hdb]
  unfold processIng
  simp only [hq, convert_qty_fst_zero, zero_div, zero_mul, addIngredient]
  simp [sortByRank, insertByRank, to_display_unit_fst_zero]
